import Mathlib

/-!
# Verification of `splunk_config_checker.py` (TylerJWhit/splunktools)

A shallow embedding of the configuration comparison engine of
`goldenconfig/splunk_config_checker.py`.  Python strings are modelled as
`List Char`, Python `None`-able strings as `Option (List Char)`.  Every
definition is translated from the Python source; the few definitions that
instead transcribe the natural-language specification are marked as such
in their doc comment.
-/

/-- A Python string, modelled as a list of characters. -/

abbrev Str := List Char

/-- Shorthand turning a Lean string literal into the `Str` model. -/

def toStr (s : String) : Str := s.toList

/-- The characters Python's `str.strip()` removes (ASCII whitespace). -/

def isPySpace (c : Char) : Bool :=
  c = ' ' || c = '\t' || c = '\n' || c = '\r' || c = '\x0b' || c = '\x0c'

/-- Python `str.strip()`: drop ASCII whitespace from both ends. -/

def pyStrip (s : Str) : Str :=
  ((s.dropWhile isPySpace).reverse.dropWhile isPySpace).reverse

/-- Python `str.strip(ch)` for a single character argument:
drop that character from both ends. -/

def pyStripChar (ch : Char) (s : Str) : Str :=
  ((s.dropWhile (· = ch)).reverse.dropWhile (· = ch)).reverse

/-- `startsWith pat s` is Python `s.startswith(pat)`. -/

def startsWith : Str → Str → Bool
  | [], _ => true
  | _ :: _, [] => false
  | p :: ps, c :: cs => p = c && startsWith ps cs

/-- `endsWith pat s` is Python `s.endswith(pat)`. -/

def endsWith (pat s : Str) : Bool :=
  startsWith pat.reverse s.reverse

/-- `containsSub pat s` is Python's substring test `pat in s`. -/

def containsSub (pat : Str) : Str → Bool
  | [] => pat.isEmpty
  | c :: cs => startsWith pat (c :: cs) || containsSub pat cs

/-- Python `s.split(sep, 1)` when `sep` occurs (characters only here):
the parts before and after the first character satisfying `p`. -/

def splitFirstPred (p : Char → Bool) : Str → Option (Str × Str)
  | [] => none
  | c :: cs =>
    if p c then some ([], cs)
    else match splitFirstPred p cs with
      | some (l, r) => some (c :: l, r)
      | none => none

/-- Python `s.split('\n')`: always returns at least one piece. -/

def pySplitLines : Str → List Str
  | [] => [[]]
  | c :: cs =>
    if c = '\n' then [] :: pySplitLines cs
    else match pySplitLines cs with
      | [] => [[c]]
      | l :: ls => (c :: l) :: ls

/-- Python `'\n'.join(lines)`. -/

def joinNL (lines : List Str) : Str :=
  List.intercalate [('\n' : Char)] lines

/-- Python `s.lower()`, modelled on the ASCII range (the configuration
vocabulary the checker compares is ASCII). -/

def asciiLower (s : Str) : Str := s.map Char.toLower

/-- First element of a list on which `f` fires; mirrors a Python
`for`-loop that returns/breaks on the first hit. -/

def firstHit (f : α → Option β) : List α → Option β
  | [] => none
  | a :: l =>
    match f a with
    | some b => some b
    | none => firstHit f l

/-! ## Stanza-text parser: `parse_btool_output` (lines 298-334) -/

/-- The line scanner of `parse_btool_output`, carrying the
`current_stanza` state from line to line. -/

def parseBtoolLines (ts s : Str) : Option Str → List Str → Option Str
  | _, [] => none
  | cur, l :: ls =>
    let line := pyStrip l
    if line = [] ∨ startsWith (toStr "#") line then
      parseBtoolLines ts s cur ls
    else if startsWith (toStr "[") line ∧ endsWith (toStr "]") line then
      parseBtoolLines ts s (some ((line.drop 1).dropLast)) ls
    else if cur = some ts ∧ '=' ∈ line then
      match splitFirstPred (· = '=') line with
      | some (lhs, rhs) =>
        if pyStrip lhs = s then some (pyStrip rhs)
        else parseBtoolLines ts s cur ls
      | none => parseBtoolLines ts s cur ls
    else parseBtoolLines ts s cur ls

/-- `parse_btool_output(output, target_stanza, target_setting)`. -/

def parse_btool_output (output ts s : Str) : Option Str :=
  parseBtoolLines ts s none (pySplitLines output)

/-! ## Spec-side description of setting extraction (spec §4.3) -/

/-- Modelled from the spec's words (§4.3): pair every scanned line
(after trimming) with the current-stanza context in effect when the
line is examined; a `[name]` line updates the context for later lines. -/

def annotateStanzas : Option Str → List Str → List (Option Str × Str)
  | _, [] => []
  | cur, l :: ls =>
    let line := pyStrip l
    if line = [] ∨ startsWith (toStr "#") line then
      (cur, line) :: annotateStanzas cur ls
    else if startsWith (toStr "[") line ∧ endsWith (toStr "]") line then
      (cur, line) :: annotateStanzas (some ((line.drop 1).dropLast)) ls
    else (cur, line) :: annotateStanzas cur ls

/-- Modelled from the spec's words (§4.3): a line is a hit when it is
neither blank, comment nor stanza header, lies in the target stanza,
contains `=`, and its trimmed left side equals the target setting; the
hit's value is the trimmed right side. -/

def settingHit (ts s : Str) (p : Option Str × Str) : Option Str :=
  if p.2 = [] ∨ startsWith (toStr "#") p.2 then none
  else if startsWith (toStr "[") p.2 ∧ endsWith (toStr "]") p.2 then none
  else if p.1 = some ts ∧ '=' ∈ p.2 then
    match splitFirstPred (· = '=') p.2 with
    | some (lhs, rhs) => if pyStrip lhs = s then some (pyStrip rhs) else none
    | none => none
  else none

/-! ## Value comparator: `_compare_values` (lines 482-507)

Python `int()` / `float()` literal parsing is modelled over ASCII digits
(optional surrounding whitespace, optional sign, underscore digit
separators, and for `float` an optional fraction, exponent, `inf` and
`nan`).  Parsed `float` literals are represented as exact rationals:
IEEE-754 rounding of decimal literals is not modelled, so two literals
compare equal exactly when they denote the same number. -/

/-- Numeric value of an ASCII digit. -/

def digitVal (c : Char) : Option Nat :=
  if '0' ≤ c ∧ c ≤ '9' then some (c.toNat - '0'.toNat) else none

/-- Continue a Python digit group after its first digit: digits with
single underscores allowed between digits, returning the accumulated
value and the number of digits read. -/

def digitsRestCnt (acc cnt : Nat) : Str → Option (Nat × Nat)
  | [] => some (acc, cnt)
  | '_' :: c :: cs =>
    match digitVal c with
    | some d => digitsRestCnt (acc * 10 + d) (cnt + 1) cs
    | none => none
  | ['_'] => none
  | c :: cs =>
    match digitVal c with
    | some d => digitsRestCnt (acc * 10 + d) (cnt + 1) cs
    | none => none

/-- A full Python digit group (`digitpart`): value and digit count. -/

def parseDigitsCnt : Str → Option (Nat × Nat)
  | [] => none
  | c :: cs =>
    match digitVal c with
    | some d => digitsRestCnt d 1 cs
    | none => none

/-- A full Python digit group, value only. -/

def parseDigits (s : Str) : Option Nat :=
  (parseDigitsCnt s).map Prod.fst

/-- Python `int(s)` on strings: optional surrounding whitespace,
optional sign, decimal digits. -/

def pyInt? (s : Str) : Option Int :=
  match pyStrip s with
  | '+' :: rest => (parseDigits rest).map Int.ofNat
  | '-' :: rest => (parseDigits rest).map (fun n => -(n : Int))
  | t => (parseDigits t).map Int.ofNat

/-- The value of a Python `float`: a finite number (kept exact as a
rational), a signed infinity, or a NaN. -/

inductive PyFloat where
  | num : ℚ → PyFloat
  | inf : Bool → PyFloat
  | nan : PyFloat
deriving DecidableEq

/-- The mantissa of a Python float literal: `digits`, `digits.`,
`digits.digits` or `.digits`, returned as the pair (all mantissa digits
as one integer, number of digits after the point), so that the mantissa
value is `digits / 10 ^ count`. -/

def parseMantissaParts (s : Str) : Option (Nat × Nat) :=
  match splitFirstPred (· = '.') s with
  | none => (parseDigitsCnt s).map (fun p => (p.1, 0))
  | some (ip, fp) =>
    if ip = [] then
      parseDigitsCnt fp
    else
      match parseDigitsCnt ip with
      | none => none
      | some (iv, _) =>
        if fp = [] then some (iv, 0)
        else (parseDigitsCnt fp).map (fun p => (iv * 10 ^ p.2 + p.1, p.2))

/-- The exponent of a Python float literal: optional sign and digits. -/

def parseExp : Str → Option Int
  | '+' :: rest => (parseDigits rest).map Int.ofNat
  | '-' :: rest => (parseDigits rest).map (fun n => -(n : Int))
  | s => (parseDigits s).map Int.ofNat

/-- An unsigned finite Python float literal: mantissa with optional
`e`/`E` exponent, as (mantissa digits, decimal exponent). -/

def parseDecimalParts (s : Str) : Option (Nat × Int) :=
  match splitFirstPred (fun c => c = 'e' ∨ c = 'E') s with
  | none => (parseMantissaParts s).map (fun p => (p.1, -(p.2 : Int)))
  | some (m, ex) =>
    match parseMantissaParts m, parseExp ex with
    | some p, some e => some (p.1, e - (p.2 : Int))
    | _, _ => none

/-- The exact rational `± m * 10 ^ e`. -/

def ratOfParts (sign : Bool) (m : Nat) (e : Int) : ℚ :=
  let mag : ℚ :=
    match e with
    | Int.ofNat n => mkRat (Int.ofNat (m * 10 ^ n)) 1
    | Int.negSucc n => mkRat (Int.ofNat m) (10 ^ (n + 1))
  if sign then mag else -mag

/-- Python `float(s)` on strings: optional surrounding whitespace,
optional sign, then a finite literal or `inf`/`infinity`/`nan`
(case-insensitive). -/

def pyFloat? (s : Str) : Option PyFloat :=
  let t := pyStrip s
  let signBody : Bool × Str :=
    match t with
    | '+' :: r => (true, r)
    | '-' :: r => (false, r)
    | _ => (true, t)
  let low := asciiLower signBody.2
  if low = toStr "inf" ∨ low = toStr "infinity" then some (PyFloat.inf signBody.1)
  else if low = toStr "nan" then some PyFloat.nan
  else
    match parseDecimalParts signBody.2 with
    | some p => some (PyFloat.num (ratOfParts signBody.1 p.1 p.2))
    | none => none

/-- IEEE `==` on parsed floats: NaN equals nothing (including itself),
infinities compare by sign, finite values compare as numbers. -/

def pyFloatEq : PyFloat → PyFloat → Bool
  | PyFloat.num a, PyFloat.num b => decide (a = b)
  | PyFloat.inf a, PyFloat.inf b => decide (a = b)
  | _, _ => false

/-- `_compare_values(actual, expected)` (lines 482-507). -/

def compareValues (actual expected : Str) : Bool :=
  if asciiLower expected = toStr "auto" ∨ asciiLower expected = toStr "true" ∨
      asciiLower expected = toStr "false" then
    decide (asciiLower actual = asciiLower expected)
  else if '.' ∈ actual ∨ '.' ∈ expected then
    match pyFloat? actual, pyFloat? expected with
    | some x, some y => pyFloatEq x y
    | _, _ => decide (pyStrip actual = pyStrip expected)
  else
    match pyInt? actual, pyInt? expected with
    | some x, some y => decide (x = y)
    | _, _ => decide (pyStrip actual = pyStrip expected)

/-! ## Golden spec parser: `_split_by_roles` (lines 355-400),
`_parse_role_section` (lines 402-453), `parse_config_file` (336-353) -/

/-- `SplunkRole` (lines 31-37). -/

inductive SplunkRole where
  | search_head
  | indexer
  | cluster_manager
  | shc_deployer
  | http_event_collector
deriving DecidableEq, Repr

/-- `ConfigCheck` (lines 39-48). -/

structure ConfigCheck where
  config_file : Str
  stanza : Str
  setting : Str
  expected_value : Str
  actual_value : Option Str
  status : Str
  role : Option SplunkRole
deriving DecidableEq, Repr

/-- `role_markers` (lines 368-374), in dictionary insertion order. -/

def roleMarkers : List (Str × SplunkRole) :=
  [(toStr "SEARCH HEADS", SplunkRole.search_head),
   (toStr "INDEXERS", SplunkRole.indexer),
   (toStr "CLUSTER MANAGER", SplunkRole.cluster_manager),
   (toStr "SHC DEPLOYER", SplunkRole.shc_deployer),
   (toStr "HTTP EVENT COLLECTOR RECEVIER INSTANCE", SplunkRole.http_event_collector)]

/-- The `for marker, role in role_markers.items()` loop (lines 384-388):
first marker whose `###BEGIN <marker>###` text occurs in the line. -/

def findBeginMarker (line : Str) : Option SplunkRole :=
  firstHit
    (fun mr => if containsSub (toStr "###BEGIN " ++ mr.1 ++ toStr "###") line then some mr.2
      else none)
    roleMarkers

/-- Python dict assignment `sections[role] = text` on an
insertion-ordered association list (covers lines 392-394: the
membership test plus assignment amount to an ordered upsert). -/

def dictSet (k : SplunkRole) (v : Str) : List (SplunkRole × Str) → List (SplunkRole × Str)
  | [] => [(k, v)]
  | (k', v') :: rest => if k' = k then (k, v) :: rest else (k', v') :: dictSet k v rest

/-- The loop state of `_split_by_roles`: the sections dict,
`current_role` and `current_section`. -/

structure RoleSplitState where
  sections : List (SplunkRole × Str)
  currentRole : Option SplunkRole
  currentSection : List Str
deriving DecidableEq, Repr

/-- One iteration of the `_split_by_roles` loop body (lines 380-398). -/

def splitRolesStep (st : RoleSplitState) (l : Str) : RoleSplitState :=
  let line := pyStrip l
  let st1 :=
    match findBeginMarker line with
    | some r => { st with currentRole := some r, currentSection := ([] : List Str) }
    | none => st
  match st1.currentRole with
  | some r =>
    if containsSub (toStr "###END") line then
      { sections := dictSet r (joinNL st1.currentSection) st1.sections,
        currentRole := none, currentSection := [] }
    else if line ≠ [] then
      { st1 with currentSection := st1.currentSection ++ [line] }
    else st1
  | none => st1

/-- `_split_by_roles(content)` (lines 355-400). -/

def splitByRoles (content : Str) : List (SplunkRole × Str) :=
  ((pySplitLines content).foldl splitRolesStep ⟨[], none, []⟩).sections

/-- Truthiness of an optional Python string (`None` and `""` are falsy). -/

def truthyS : Option Str → Prop
  | none => False
  | some s => s ≠ []

instance : DecidablePred truthyS := fun o => by
  cases o with
  | none => exact inferInstanceAs (Decidable False)
  | some s => exact inferInstanceAs (Decidable (s ≠ []))

/-- The line loop of `_parse_role_section` (lines 410-453), carrying
`current_config_file` and `current_stanza`. -/

def parseRoleLines (role : SplunkRole) : Option Str → Option Str → List Str → List ConfigCheck
  | _, _, [] => []
  | cf, cst, l :: ls =>
    let line := pyStrip l
    if line = [] ∨ startsWith (toStr "#") line then
      parseRoleLines role cf cst ls
    else if startsWith (toStr "###") line ∧ endsWith (toStr "###") line ∧
        containsSub (toStr ".conf") line then
      parseRoleLines role (some (pyStrip (pyStripChar '#' line))) cst ls
    else if startsWith (toStr "[") line ∧ endsWith (toStr "]") line then
      parseRoleLines role cf (some ((line.drop 1).dropLast)) ls
    else if '=' ∈ line ∧ truthyS cf ∧ truthyS cst then
      match cf, cst, splitFirstPred (· = '=') line with
      | some cfv, some cstv, some (lhs, rhs) =>
        let setting := pyStrip lhs
        let ev0 := pyStrip rhs
        let ev := if '#' ∈ ev0 then pyStrip (ev0.takeWhile (· ≠ '#')) else ev0
        if ev = [] then parseRoleLines role cf cst ls
        else
          { config_file := cfv, stanza := cstv, setting := setting, expected_value := ev,
            actual_value := none, status := toStr "UNKNOWN", role := some role } ::
            parseRoleLines role cf cst ls
      | _, _, _ => parseRoleLines role cf cst ls
    else parseRoleLines role cf cst ls

/-- `_parse_role_section(role, section_content)` (lines 402-453),
returning the checks it appends. -/

def parseRoleSection (role : SplunkRole) (sectionContent : Str) : List ConfigCheck :=
  parseRoleLines role none none (pySplitLines sectionContent)

/-- `parse_config_file` after reading the document (lines 349-353):
split by roles, then parse each role's section in order. -/

def parseConfigText (content : Str) : List ConfigCheck :=
  (splitByRoles content).foldl (fun acc rs => acc ++ parseRoleSection rs.1 rs.2) []

/-! ## Check engine: `check_configurations` (lines 455-480),
`_get_summary` (lines 612-620) -/

/-- Python `s.replace(old, new)` for non-empty `old`: replace every
non-overlapping occurrence left to right.  `fuel` bounds the recursion
structurally; since each step consumes at least one character,
`fuel = s.length` (as used by `pyReplace`) computes the exact result. -/

def pyReplaceAux (old new : Str) : Nat → Str → Str
  | 0, s => s
  | _ + 1, [] => []
  | fuel + 1, c :: cs =>
    if old ≠ [] ∧ startsWith old (c :: cs) then
      new ++ pyReplaceAux old new fuel ((c :: cs).drop old.length)
    else c :: pyReplaceAux old new fuel cs

/-- Python `s.replace(old, new)` (for the non-empty `old` used here). -/

def pyReplace (old new s : Str) : Str := pyReplaceAux old new s.length s

/-- Line 463: `config_base = check.config_file.replace('.conf', '')`. -/

def configBase (cf : Str) : Str := pyReplace (toStr ".conf") [] cf

/-- The body of the `check_configurations` loop (lines 461-480) for one
check, with the backend (`run_btool_command`) abstracted as a function
from (config base name, stanza) to raw output — both the live and the
archive variants return `""` rather than raising when no data is found. -/

def checkOne (resolve : Str → Str → Str) (check : ConfigCheck) : ConfigCheck :=
  let btool_output := resolve (configBase check.config_file) check.stanza
  if btool_output ≠ [] then
    match parse_btool_output btool_output check.stanza check.setting with
    | none => { check with actual_value := none, status := toStr "MISSING" }
    | some a =>
      if compareValues a check.expected_value then
        { check with actual_value := some a, status := toStr "OK" }
      else { check with actual_value := some a, status := toStr "MISMATCH" }
  else { check with status := toStr "ERROR" }

/-- `check_configurations` (lines 455-480): check every expectation in
order. -/

def checkConfigurations (resolve : Str → Str → Str) (checks : List ConfigCheck) :
    List ConfigCheck :=
  checks.map (checkOne resolve)

/-- The five status keys of `_get_summary` (line 614), in dict order. -/

def statusKeys : List Str :=
  [toStr "OK", toStr "MISMATCH", toStr "MISSING", toStr "ERROR", toStr "UNKNOWN"]

/-- The summary dict initialised with every key at zero (line 614). -/

def initSummary : List (Str × Nat) :=
  [(toStr "OK", 0), (toStr "MISMATCH", 0), (toStr "MISSING", 0),
   (toStr "ERROR", 0), (toStr "UNKNOWN", 0)]

/-- Python `summary[k] += 1` on the ordered association list. -/

def bumpKey (k : Str) : List (Str × Nat) → List (Str × Nat)
  | [] => []
  | (k', n) :: rest => if k' = k then (k', n + 1) :: rest else (k', n) :: bumpKey k rest

/-- One iteration of the `_get_summary` loop (lines 616-618):
`if check.status in summary: summary[check.status] += 1`. -/

def summaryStep (s : List (Str × Nat)) (c : ConfigCheck) : List (Str × Nat) :=
  if c.status ∈ s.map Prod.fst then bumpKey c.status s else s

/-- `_get_summary` (lines 612-620). -/

def getSummary (checks : List ConfigCheck) : List (Str × Nat) :=
  checks.foldl summaryStep initSummary

/-- The inherited fields of a check: everything but `actual_value` and
`status`. -/

def checkTuple (c : ConfigCheck) : Option SplunkRole × Str × Str × Str × Str :=
  (c.role, c.config_file, c.stanza, c.setting, c.expected_value)

/-- A backend for the C2 witness: data only for `server`/`httpServer`. -/

def witnessResolve : Str → Str → Str :=
  fun cf st =>
    if cf = toStr "server" ∧ st = toStr "httpServer" then
      toStr "[httpServer]\nbusyKeepAliveIdleTimeout = 120"
    else []

/-- The expectation of the spec's §8 scenario. -/

def witnessCheck : ConfigCheck :=
  { config_file := toStr "server.conf", stanza := toStr "httpServer",
    setting := toStr "busyKeepAliveIdleTimeout", expected_value := toStr "120",
    actual_value := none, status := toStr "UNKNOWN", role := some SplunkRole.search_head }

/-- A backend with data only at the key `ab`. -/

def cexResolve : Str → Str → Str :=
  fun cf _ => if cf = toStr "ab" then toStr "[s]\nx = 1" else []

/-- An expectation whose config file contains `.conf` twice. -/

def cexCheck : ConfigCheck :=
  { config_file := toStr "a.confb.conf", stanza := toStr "s", setting := toStr "x",
    expected_value := toStr "1", actual_value := none, status := toStr "UNKNOWN", role := none }

/-- Two backends for the C7 witness that differ everywhere except at
the queried key `server`. -/

def qkResolveA : Str → Str → Str :=
  fun cf _ => if cf = toStr "server" then toStr "[s]\nx = 1" else toStr "zzz"

/-- See `qkResolveA`. -/

def qkResolveB : Str → Str → Str :=
  fun cf _ => if cf = toStr "server" then toStr "[s]\nx = 1" else []

/-- The expectation used by the C7 witness. -/

def qkCheck : ConfigCheck :=
  { config_file := toStr "server.conf", stanza := toStr "s", setting := toStr "x",
    expected_value := toStr "1", actual_value := none, status := toStr "UNKNOWN", role := none }

/-! ## Theorems -/

/-- Unfolding lemma for `parseBtoolLines` on a cons cell. -/
theorem parseBtoolLines_cons (ts s : Str) (cur : Option Str) (l : Str) (ls : List Str) :
    parseBtoolLines ts s cur (l :: ls) =
      (if pyStrip l = [] ∨ startsWith (toStr "#") (pyStrip l) then
        parseBtoolLines ts s cur ls
      else if startsWith (toStr "[") (pyStrip l) ∧ endsWith (toStr "]") (pyStrip l) then
        parseBtoolLines ts s (some (((pyStrip l).drop 1).dropLast)) ls
      else if cur = some ts ∧ '=' ∈ pyStrip l then
        match splitFirstPred (· = '=') (pyStrip l) with
        | some (lhs, rhs) =>
          if pyStrip lhs = s then some (pyStrip rhs)
          else parseBtoolLines ts s cur ls
        | none => parseBtoolLines ts s cur ls
      else parseBtoolLines ts s cur ls) := rfl

/-- Unfolding lemma for `annotateStanzas` on a cons cell. -/
theorem annotateStanzas_cons (cur : Option Str) (l : Str) (ls : List Str) :
    annotateStanzas cur (l :: ls) =
      (if pyStrip l = [] ∨ startsWith (toStr "#") (pyStrip l) then
        (cur, pyStrip l) :: annotateStanzas cur ls
      else if startsWith (toStr "[") (pyStrip l) ∧ endsWith (toStr "]") (pyStrip l) then
        (cur, pyStrip l) :: annotateStanzas (some (((pyStrip l).drop 1).dropLast)) ls
      else (cur, pyStrip l) :: annotateStanzas cur ls) := rfl

theorem firstHit_cons_none (f : α → Option β) (a : α) (l : List α) (h : f a = none) :
    firstHit f (a :: l) = firstHit f l := by
  simp [firstHit, h]

theorem firstHit_cons_some (f : α → Option β) (a : α) (l : List α) (b : β) (h : f a = some b) :
    firstHit f (a :: l) = some b := by
  simp [firstHit, h]

/-- The scanner agrees with the spec-side first-hit description, for any
starting stanza context. -/
theorem parseBtool_eq_spec_aux (ts s : Str) :
    ∀ (lines : List Str) (cur : Option Str),
      parseBtoolLines ts s cur lines = firstHit (settingHit ts s) (annotateStanzas cur lines)
  | [], _ => rfl
  | l :: ls, cur => by
    have ih := fun cur => parseBtool_eq_spec_aux ts s ls cur
    rw [parseBtoolLines_cons, annotateStanzas_cons]
    by_cases h1 : pyStrip l = [] ∨ startsWith (toStr "#") (pyStrip l) = true
    · rw [if_pos h1, if_pos h1]
      exact (ih cur).trans (firstHit_cons_none _ _ _ (by simp [settingHit, h1])).symm
    · rw [if_neg h1, if_neg h1]
      by_cases h2 : startsWith (toStr "[") (pyStrip l) = true ∧ endsWith (toStr "]") (pyStrip l) = true
      · rw [if_pos h2, if_pos h2]
        exact (ih _).trans (firstHit_cons_none _ _ _ (by simp [settingHit, h1, h2])).symm
      · rw [if_neg h2, if_neg h2]
        by_cases h3 : cur = some ts ∧ '=' ∈ pyStrip l
        · rw [if_pos h3]
          rcases hsp : splitFirstPred (· = '=') (pyStrip l) with _ | ⟨lhs, rhs⟩
          · simp only [hsp]
            exact (ih cur).trans
              (firstHit_cons_none _ _ _ (by simp [settingHit, h1, h2, h3, hsp])).symm
          · simp only [hsp]
            by_cases h4 : pyStrip lhs = s
            · rw [if_pos h4]
              exact (firstHit_cons_some _ _ _ _
                (by simp [settingHit, h1, h2, h3, hsp, h4])).symm
            · rw [if_neg h4]
              exact (ih cur).trans
                (firstHit_cons_none _ _ _ (by simp [settingHit, h1, h2, h3, hsp, h4])).symm
        · rw [if_neg h3]
          exact (ih cur).trans
            (firstHit_cons_none _ _ _ (by simp [settingHit, h1, h2, h3])).symm

/-- C5: extraction skips blank and `#` lines, tracks the current stanza
from `[` `]` lines, returns the trimmed right side of the first line in
the target stanza containing `=` whose trimmed left side equals the
target setting, and returns absent if the scan finds no such line. -/
theorem parse_btool_output_matches_spec (output ts s : Str) :
    parse_btool_output output ts s =
      firstHit (settingHit ts s) (annotateStanzas none (pySplitLines output)) :=
  parseBtool_eq_spec_aux ts s (pySplitLines output) none

/-- C10: a line whose trimmed form starts with `#` never changes the
current stanza and is never returned as a setting value: dropping such a
line anywhere in the scanned input leaves extraction unchanged, so the
`# From: <path>` headers the backend resolvers prepend are invisible. -/
theorem comment_lines_invisible (c : Str) (hc : startsWith (toStr "#") (pyStrip c) = true) :
    ∀ (ts s : Str) (cur : Option Str) (l₁ l₂ : List Str),
      parseBtoolLines ts s cur (l₁ ++ c :: l₂) = parseBtoolLines ts s cur (l₁ ++ l₂) := by
  intro ts s cur l₁ l₂
  induction l₁ generalizing cur with
  | nil =>
    simp only [List.nil_append]
    rw [parseBtoolLines_cons, if_pos (Or.inr hc)]
  | cons a l₁ ih =>
    simp only [List.cons_append]
    rw [parseBtoolLines_cons, parseBtoolLines_cons]
    by_cases h1 : pyStrip a = [] ∨ startsWith (toStr "#") (pyStrip a) = true
    · rw [if_pos h1, if_pos h1]; exact ih cur
    · rw [if_neg h1, if_neg h1]
      by_cases h2 : startsWith (toStr "[") (pyStrip a) = true ∧ endsWith (toStr "]") (pyStrip a) = true
      · rw [if_pos h2, if_pos h2]; exact ih _
      · rw [if_neg h2, if_neg h2]
        by_cases h3 : cur = some ts ∧ '=' ∈ pyStrip a
        · rw [if_pos h3, if_pos h3]
          rcases hsp : splitFirstPred (· = '=') (pyStrip a) with _ | ⟨lhs, rhs⟩
          · simp only [hsp]; exact ih cur
          · simp only [hsp]
            by_cases h4 : pyStrip lhs = s
            · rw [if_pos h4, if_pos h4]
            · rw [if_neg h4, if_neg h4]; exact ih cur
        · rw [if_neg h3, if_neg h3]; exact ih cur

/-- Witness for C10 at a concrete `# From:` header line. -/
theorem comment_lines_invisible_witness :
    parseBtoolLines (toStr "a") (toStr "x") none
        ([toStr "[a]"] ++ toStr "# From: /opt/splunk/etc/system/local/server.conf" :: [toStr "x = 1"]) =
      some (toStr "1") :=
  (comment_lines_invisible (toStr "# From: /opt/splunk/etc/system/local/server.conf")
      (by decide) (toStr "a") (toStr "x") none [toStr "[a]"] [toStr "x = 1"]).trans (by decide)

/-- C3: when the expected value lowercases to `auto`, `true` or `false`,
the comparator is exactly case-insensitive string equality, regardless of
whether the actual value parses as a number. -/
theorem compare_values_bool_keyword (a e : Str)
    (h : asciiLower e = toStr "auto" ∨ asciiLower e = toStr "true" ∨
      asciiLower e = toStr "false") :
    compareValues a e = true ↔ asciiLower a = asciiLower e := by
  unfold compareValues
  rw [if_pos h]
  exact decide_eq_true_iff

/-- Witness for C3: `"120"` parses as a number but is still compared as
a lowercased string against the keyword `"TRUE"`. -/
theorem compare_values_bool_keyword_witness :
    compareValues (toStr "True") (toStr "TRUE") = true ∧
      compareValues (toStr "120") (toStr "TRUE") = false := by
  constructor
  · exact (compare_values_bool_keyword (toStr "True") (toStr "TRUE") (by decide)).mpr (by decide)
  · have h := compare_values_bool_keyword (toStr "120") (toStr "TRUE") (by decide)
    revert h
    decide

/-- C4: outside the boolean keywords, the comparator compares both sides
as numbers — parsed (exactly) as decimals when either side contains a
point, as integers when neither does — and falls back to equality of the
whitespace-trimmed strings when the applicable parse fails on either
side. -/
theorem compare_values_numeric_rules (a e : Str)
    (hb : ¬(asciiLower e = toStr "auto" ∨ asciiLower e = toStr "true" ∨
      asciiLower e = toStr "false")) :
    (('.' ∈ a ∨ '.' ∈ e) →
       ∀ qa qe : ℚ, pyFloat? a = some (PyFloat.num qa) → pyFloat? e = some (PyFloat.num qe) →
         compareValues a e = decide (qa = qe))
    ∧ (('.' ∈ a ∨ '.' ∈ e) →
       (pyFloat? a = none ∨ pyFloat? e = none) →
         compareValues a e = decide (pyStrip a = pyStrip e))
    ∧ (¬('.' ∈ a ∨ '.' ∈ e) →
       ∀ ia ie : Int, pyInt? a = some ia → pyInt? e = some ie →
         compareValues a e = decide (ia = ie))
    ∧ (¬('.' ∈ a ∨ '.' ∈ e) →
       (pyInt? a = none ∨ pyInt? e = none) →
         compareValues a e = decide (pyStrip a = pyStrip e)) := by
  refine ⟨?_, ?_, ?_, ?_⟩
  · intro hd qa qe ha he
    unfold compareValues
    rw [if_neg hb, if_pos hd, ha, he]
    rfl
  · intro hd hn
    unfold compareValues
    rw [if_neg hb, if_pos hd]
    rcases hn with h | h
    · rw [h]
    · rw [h]
      cases ha : pyFloat? a <;> rfl
  · intro hd ia ie ha he
    unfold compareValues
    rw [if_neg hb, if_neg hd, ha, he]
  · intro hd hn
    unfold compareValues
    rw [if_neg hb, if_neg hd]
    rcases hn with h | h
    · rw [h]
    · rw [h]
      cases ha : pyInt? a <;> rfl

/-- Witness for C4: `"30"` and `"30.0"` differ only in a trailing zero
decimal and compare equal through the decimal branch. -/
theorem compare_values_numeric_rules_witness :
    compareValues (toStr "30") (toStr "30.0") = true := by
  have h := (compare_values_numeric_rules (toStr "30") (toStr "30.0") (by decide)).1
    (by decide) (mkRat 30 1) (mkRat 30 1) (by decide) (by decide)
  exact h.trans (by decide)

/-- Unfolding lemma for `parseRoleLines` on a cons cell. -/
theorem parseRoleLines_cons (role : SplunkRole) (cf cst : Option Str) (l : Str) (ls : List Str) :
    parseRoleLines role cf cst (l :: ls) =
      (if pyStrip l = [] ∨ startsWith (toStr "#") (pyStrip l) then
        parseRoleLines role cf cst ls
      else if startsWith (toStr "###") (pyStrip l) ∧ endsWith (toStr "###") (pyStrip l) ∧
          containsSub (toStr ".conf") (pyStrip l) then
        parseRoleLines role (some (pyStrip (pyStripChar '#' (pyStrip l)))) cst ls
      else if startsWith (toStr "[") (pyStrip l) ∧ endsWith (toStr "]") (pyStrip l) then
        parseRoleLines role cf (some (((pyStrip l).drop 1).dropLast)) ls
      else if '=' ∈ pyStrip l ∧ truthyS cf ∧ truthyS cst then
        match cf, cst, splitFirstPred (· = '=') (pyStrip l) with
        | some cfv, some cstv, some (lhs, rhs) =>
          if (if '#' ∈ pyStrip rhs then pyStrip ((pyStrip rhs).takeWhile (· ≠ '#'))
              else pyStrip rhs) = [] then
            parseRoleLines role cf cst ls
          else
            { config_file := cfv, stanza := cstv, setting := pyStrip lhs,
              expected_value :=
                if '#' ∈ pyStrip rhs then pyStrip ((pyStrip rhs).takeWhile (· ≠ '#'))
                else pyStrip rhs,
              actual_value := none, status := toStr "UNKNOWN", role := some role } ::
              parseRoleLines role cf cst ls
        | _, _, _ => parseRoleLines role cf cst ls
      else parseRoleLines role cf cst ls) := rfl

/-- A line starting with `###` starts with `#`. -/
theorem startsWith_hash_of_three (line : Str)
    (h : startsWith (toStr "###") line = true) : startsWith (toStr "#") line = true := by
  cases line with
  | nil => exact absurd h (by decide)
  | cons c cs =>
    simp only [toStr, startsWith, Bool.and_eq_true] at h ⊢
    exact ⟨h.1, trivial⟩

/-- With no active config file, the role-section line loop emits
nothing: the config-file marker branch is unreachable because any
`###...###` line is already skipped as a comment. -/
theorem parseRoleLines_no_file (role : SplunkRole) :
    ∀ (lines : List Str) (cst : Option Str), parseRoleLines role none cst lines = []
  | [], _ => rfl
  | l :: ls, cst => by
    have ih := fun cst => parseRoleLines_no_file role ls cst
    rw [parseRoleLines_cons]
    by_cases h1 : pyStrip l = [] ∨ startsWith (toStr "#") (pyStrip l) = true
    · rw [if_pos h1]; exact ih cst
    · rw [if_neg h1]
      by_cases h2 : startsWith (toStr "###") (pyStrip l) = true ∧
          endsWith (toStr "###") (pyStrip l) = true ∧
          containsSub (toStr ".conf") (pyStrip l) = true
      · exact absurd (Or.inr (startsWith_hash_of_three _ h2.1)) h1
      · rw [if_neg h2]
        by_cases h3 : startsWith (toStr "[") (pyStrip l) = true ∧
            endsWith (toStr "]") (pyStrip l) = true
        · rw [if_pos h3]; exact ih _
        · rw [if_neg h3]
          by_cases h4 : '=' ∈ pyStrip l ∧ truthyS none ∧ truthyS cst
          · exact absurd h4.2.1 (fun h => h)
          · rw [if_neg h4]; exact ih cst

/-- Folding section parsing over any sections list adds nothing. -/
theorem parseConfig_fold_empty :
    ∀ (sections : List (SplunkRole × Str)) (acc : List ConfigCheck),
      sections.foldl (fun acc rs => acc ++ parseRoleSection rs.1 rs.2) acc = acc
  | [], _ => rfl
  | rs :: rest, acc => by
    rw [List.foldl_cons]
    have h : parseRoleSection rs.1 rs.2 = [] := parseRoleLines_no_file rs.1 _ none
    rw [h, List.append_nil]
    exact parseConfig_fold_empty rest acc

/-- C1 (code bug): the golden document parser produces no Expectations
at all, for any document — never N×M of them.  Each `###file.conf###`
marker line starts with `#`, so the comment-skip at the top of the
role-section loop consumes it before the config-file branch can run;
`current_config_file` therefore stays unset and every `setting = value`
line is ignored. -/
theorem golden_parser_produces_no_expectations (content : Str) :
    parseConfigText content = [] :=
  parseConfig_fold_empty (splitByRoles content) []

/-- A line with no `###END` occurrence never changes the sections dict. -/
theorem splitRolesStep_sections_no_end (st : RoleSplitState) (l : Str)
    (h : containsSub (toStr "###END") (pyStrip l) = false) :
    (splitRolesStep st l).sections = st.sections := by
  cases hb : findBeginMarker (pyStrip l) with
  | none =>
    cases hr : st.currentRole with
    | none => simp [splitRolesStep, hb, hr]
    | some r =>
      simp only [splitRolesStep, hb, hr, h]
      simp only [Bool.false_eq_true, if_false]
      split <;> rfl
  | some r =>
    simp only [splitRolesStep, hb, h]
    simp only [Bool.false_eq_true, if_false]
    split <;> rfl

/-- Part of C9: a run of lines containing no end marker commits nothing. -/
theorem splitRoles_no_end_sections :
    ∀ (lines : List Str) (st : RoleSplitState),
      (∀ l ∈ lines, containsSub (toStr "###END") (pyStrip l) = false) →
      (lines.foldl splitRolesStep st).sections = st.sections
  | [], _, _ => rfl
  | l :: ls, st, h => by
    rw [List.foldl_cons]
    have h1 := h l (List.mem_cons_self l ls)
    have hrest := fun l' hl' => h l' (List.mem_cons_of_mem _ hl')
    rw [splitRoles_no_end_sections ls _ hrest]
    exact splitRolesStep_sections_no_end st l h1

/-- C9: a role block's accumulated lines reach the output only when a
line containing the end marker is encountered: (1) folding any lines
without `###END` leaves the sections dict unchanged (so a block cut off
by the end of the document contributes nothing), and (2) a role-begin
line discards the accumulated section and restarts it (so a block cut
off by a new begin marker contributes nothing). -/
theorem role_block_committed_only_at_end :
    (∀ (lines : List Str) (st : RoleSplitState),
      (∀ l ∈ lines, containsSub (toStr "###END") (pyStrip l) = false) →
      (lines.foldl splitRolesStep st).sections = st.sections)
    ∧ (∀ (st : RoleSplitState) (l : Str) (r : SplunkRole),
      findBeginMarker (pyStrip l) = some r →
      containsSub (toStr "###END") (pyStrip l) = false →
      splitRolesStep st l =
        { sections := st.sections, currentRole := some r, currentSection := [pyStrip l] }) := by
  constructor
  · exact splitRoles_no_end_sections
  · intro st l r hb he
    have hnone : findBeginMarker ([] : Str) = none := by decide
    have hne : pyStrip l ≠ [] := by
      intro h0
      rw [h0, hnone] at hb
      exact Option.noConfusion hb
    simp [splitRolesStep, hb, he, hne]

/-- Witness for C9: a document whose role block never ends yields no
sections at all. -/
theorem role_block_committed_only_at_end_witness :
    splitByRoles
        (toStr "###BEGIN SEARCH HEADS###\n[httpServer]\nbusyKeepAliveIdleTimeout = 120") = [] :=
  role_block_committed_only_at_end.1
    (pySplitLines (toStr "###BEGIN SEARCH HEADS###\n[httpServer]\nbusyKeepAliveIdleTimeout = 120"))
    ⟨[], none, []⟩ (by decide)

/-- C2: per expectation, the engine assigns `ERROR` (leaving the
actual value untouched) when the backend's raw result is empty,
`MISSING` when extraction finds nothing, and otherwise `OK` or
`MISMATCH` according to the comparator; backend "no data" surfaces
only as the `ERROR` status of that check. -/
theorem check_engine_status_assignment (resolve : Str → Str → Str) (check : ConfigCheck) :
    (resolve (configBase check.config_file) check.stanza = [] →
      checkOne resolve check = { check with status := toStr "ERROR" })
    ∧ (resolve (configBase check.config_file) check.stanza ≠ [] →
      parse_btool_output (resolve (configBase check.config_file) check.stanza)
          check.stanza check.setting = none →
      checkOne resolve check = { check with actual_value := none, status := toStr "MISSING" })
    ∧ (∀ a, resolve (configBase check.config_file) check.stanza ≠ [] →
      parse_btool_output (resolve (configBase check.config_file) check.stanza)
          check.stanza check.setting = some a →
      checkOne resolve check =
        { check with
            actual_value := some a,
            status := (if compareValues a check.expected_value then toStr "OK"
                       else toStr "MISMATCH") }) := by
  refine ⟨?_, ?_, ?_⟩
  · intro h
    simp only [checkOne]
    rw [if_neg (not_not_intro h)]
  · intro h hp
    simp only [checkOne]
    rw [if_pos h, hp]
  · intro a h hp
    simp only [checkOne]
    rw [if_pos h, hp]
    by_cases hc : compareValues a check.expected_value = true
    · simp [hc]
    · simp [hc]

/-- Witness for C2 at the spec's §8 scenario. -/
theorem check_engine_status_assignment_witness :
    checkOne witnessResolve witnessCheck =
      { witnessCheck with
          actual_value := some (toStr "120"),
          status := (if compareValues (toStr "120") witnessCheck.expected_value then toStr "OK"
                     else toStr "MISMATCH") } :=
  (check_engine_status_assignment witnessResolve witnessCheck).2.2 (toStr "120")
    (by decide) (by decide)

/-- `checkOne` never touches the inherited fields. -/
theorem checkTuple_checkOne (resolve : Str → Str → Str) (c : ConfigCheck) :
    checkTuple (checkOne resolve c) = checkTuple c := by
  simp only [checkOne]
  split
  · split
    · rfl
    · split <;> rfl
  · rfl

/-- C6: the check pass yields one result per input expectation, in input
order, and every result's `role`, `config_file`, `stanza`, `setting`
and `expected_value` are exactly those of its source expectation — only
`actual_value` and `status` can change. -/
theorem check_engine_preserves_expectations (resolve : Str → Str → Str)
    (checks : List ConfigCheck) :
    (checkConfigurations resolve checks).map checkTuple = checks.map checkTuple := by
  induction checks with
  | nil => rfl
  | cons c cs ih =>
    simp only [checkConfigurations, List.map_cons] at ih ⊢
    rw [checkTuple_checkOne, ih]

/-- C7 counterexample: for `config_file = "a.confb.conf"` the engine's
backend key is `"ab"` — every occurrence of `.conf` is removed, not just
the suffix.  A backend that has data only at `"ab"` (and none at the
claim's key `"a.confb"`) makes the check succeed, which would be
impossible if the engine queried the suffix-stripped key. -/
theorem config_key_not_suffix_strip :
    configBase (toStr "a.confb.conf") = toStr "ab" ∧
      toStr "ab" ≠ toStr "a.confb" ∧
      (checkOne cexResolve cexCheck).status = toStr "OK" ∧
      cexResolve (toStr "a.confb") (toStr "s") = [] := by
  decide

/-- C7 (amended): the engine queries the backend at exactly the key
`configBase config_file` — the name with every occurrence of `.conf`
removed (Python `str.replace`) — together with the expectation's stanza:
two backends that agree at that one point give identical results. -/
theorem check_engine_query_key (resolve resolve2 : Str → Str → Str) (check : ConfigCheck)
    (h : resolve (configBase check.config_file) check.stanza =
      resolve2 (configBase check.config_file) check.stanza) :
    checkOne resolve check = checkOne resolve2 check := by
  simp only [checkOne]
  rw [h]

/-- Witness for the amended C7. -/
theorem check_engine_query_key_witness :
    checkOne qkResolveA qkCheck = checkOne qkResolveB qkCheck :=
  check_engine_query_key qkResolveA qkResolveB qkCheck (by decide)

/-- `bumpKey` never changes the key list. -/
theorem bumpKey_keys (k : Str) :
    ∀ s : List (Str × Nat), (bumpKey k s).map Prod.fst = s.map Prod.fst
  | [] => rfl
  | (k', n) :: rest => by
    unfold bumpKey
    by_cases h : k' = k
    · rw [if_pos h]
      simp [h]
    · rw [if_neg h]
      simp [bumpKey_keys k rest]

/-- `bumpKey` on a present key adds exactly one to the total count. -/
theorem bumpKey_sum (k : Str) :
    ∀ s : List (Str × Nat), k ∈ s.map Prod.fst →
      ((bumpKey k s).map Prod.snd).sum = (s.map Prod.snd).sum + 1
  | [], h => absurd h (List.not_mem_nil k)
  | (k', n) :: rest, h => by
    unfold bumpKey
    by_cases hk : k' = k
    · rw [if_pos hk]
      simp [Nat.add_assoc, Nat.add_comm 1]
    · rw [if_neg hk]
      have hmem : k ∈ rest.map Prod.fst := by
        rcases List.mem_cons.mp h with h1 | h1
        · exact absurd h1.symm hk
        · exact h1
      simp only [List.map_cons, List.sum_cons, bumpKey_sum k rest hmem]
      omega

/-- The summary fold keeps the key list fixed and adds one per check
whose status is among the keys. -/
theorem getSummary_fold :
    ∀ (checks : List ConfigCheck) (s : List (Str × Nat)),
      (∀ c ∈ checks, c.status ∈ s.map Prod.fst) →
      (checks.foldl summaryStep s).map Prod.fst = s.map Prod.fst ∧
        ((checks.foldl summaryStep s).map Prod.snd).sum =
          (s.map Prod.snd).sum + checks.length
  | [], s, _ => ⟨rfl, rfl⟩
  | c :: cs, s, h => by
    rw [List.foldl_cons]
    have hc := h c (List.mem_cons_self c cs)
    have hstep : summaryStep s c = bumpKey c.status s := by
      unfold summaryStep
      rw [if_pos hc]
    have hrest : ∀ c' ∈ cs, c'.status ∈ (summaryStep s c).map Prod.fst := by
      intro c' hc'
      rw [hstep, bumpKey_keys]
      exact h c' (List.mem_cons_of_mem _ hc')
    obtain ⟨ih1, ih2⟩ := getSummary_fold cs (summaryStep s c) hrest
    refine ⟨?_, ?_⟩
    · rw [ih1, hstep, bumpKey_keys]
    · rw [ih2, hstep, bumpKey_sum c.status s hc]
      simp [List.length_cons]
      omega

/-- C8: for any result set whose statuses lie in the five known
statuses, the summary map has exactly the keys `OK`, `MISMATCH`,
`MISSING`, `ERROR`, `UNKNOWN` (each present even at count zero) and its
counts sum to the number of results. -/
theorem summary_covers_all_results (checks : List ConfigCheck)
    (h : ∀ c ∈ checks, c.status ∈ statusKeys) :
    (getSummary checks).map Prod.fst = statusKeys ∧
      ((getSummary checks).map Prod.snd).sum = checks.length := by
  have hinit : initSummary.map Prod.fst = statusKeys := rfl
  have h0 : ∀ c ∈ checks, c.status ∈ initSummary.map Prod.fst := by
    rw [hinit]; exact h
  obtain ⟨h1, h2⟩ := getSummary_fold checks initSummary h0
  refine ⟨h1.trans hinit, ?_⟩
  show ((checks.foldl summaryStep initSummary).map Prod.snd).sum = checks.length
  rw [h2]
  simp [initSummary]

/-- Witness for C8: two results (one `OK`, one `ERROR`) give the five
fixed keys and a total of two. -/
theorem summary_covers_all_results_witness :
    (getSummary [{ witnessCheck with status := toStr "OK" },
        { witnessCheck with status := toStr "ERROR" }]).map Prod.fst = statusKeys ∧
      ((getSummary [{ witnessCheck with status := toStr "OK" },
        { witnessCheck with status := toStr "ERROR" }]).map Prod.snd).sum =
        ([{ witnessCheck with status := toStr "OK" },
          { witnessCheck with status := toStr "ERROR" }] : List ConfigCheck).length :=
  summary_covers_all_results
    [{ witnessCheck with status := toStr "OK" }, { witnessCheck with status := toStr "ERROR" }]
    (by decide)
